import Mathlib

/-!
Shallow embedding of `src/Week 4/src/symtab.c`: the symbol table and type
representation of a small Pascal-like compiler front end.

Modelling conventions:
- Heap pointers to `Object`s and `Scope`s become indices (`Nat`) into the
  `objs` / `scopes` lists of a `SymTab` state; a nullable pointer becomes
  `Option Nat`.  An out-of-range index models a dangling pointer, which is
  undefined behaviour in the C source and never arises in the states the
  theorems quantify over.
- `exit(1)` (fatal error paths) and null-pointer dereferences are modelled by
  an `Option` result: `none` means the C program aborted / crashed on that
  input, `some` carries the result of a normal return.
- The C tagged union `Object` (one attribute struct per `ObjectKind`) is
  flattened into a single structure whose kind-specific fields carry the
  fields of the corresponding attribute struct; fields of inactive variants
  keep their default value, mirroring "unset" union members.
- `Type` values form ownership trees in C (`makeArrayType` takes ownership of
  its element), so they are embedded by the inductive value `Ty`.
- C `int` is embedded as `Int`; no arithmetic in this module can overflow.
-/

/-- Passing mode of a parameter (`enum ParamKind` from the header; only
`PARAM_VALUE` appears in `symtab.c`, the spec names the other mode
by-reference). -/
inductive ParamKind where
  | paramValue
  | paramReference
deriving DecidableEq

/-- The seven object kinds (`enum ObjectKind`, as used throughout
`symtab.c`). -/
inductive ObjectKind where
  | objProgram
  | objVariable
  | objConstant
  | objType
  | objFunction
  | objProcedure
  | objParameter
deriving DecidableEq

/-- The type representation: `TP_INT`, `TP_CHAR`, and `TP_ARRAY` with its
`arraySize` and exclusively owned `elementType` (hence a value tree). -/
inductive Ty where
  | int
  | char
  | array (arraySize : Int) (elementType : Ty)
deriving DecidableEq

/-- `makeIntType` from `symtab.c`: always yields a fresh `TP_INT` type. -/
def makeIntType : Ty := Ty.int

/-- `makeCharType` from `symtab.c`: always yields a fresh `TP_CHAR` type. -/
def makeCharType : Ty := Ty.char

/-- `makeArrayType` from `symtab.c`: rejects `arraySize <= 0` or a null
element type by returning `NULL` (here `none`); otherwise builds the
`TP_ARRAY` type with exactly the given size and element. -/
def makeArrayType (arraySize : Int) (elementType : Option Ty) : Option Ty :=
  if arraySize ≤ 0 then none
  else
    match elementType with
    | none => none
    | some t => some (Ty.array arraySize t)

/-- The tagged constant value (`ConstantValue` with `type` = `TP_INT` or
`TP_CHAR` and the active union member `intValue` / `charValue`); embedded as
the sum of the two constructible variants. -/
inductive ConstantValue where
  | intConst (intValue : Int)
  | charConst (charValue : Char)
deriving DecidableEq

/-- `makeIntConstant` from `symtab.c`. -/
def makeIntConstant (v : Int) : ConstantValue := ConstantValue.intConst v

/-- `makeCharConstant` from `symtab.c`. -/
def makeCharConstant (c : Char) : ConstantValue := ConstantValue.charConst c

/-- A heap of constant values: `ConstantValue*` pointers become indices into
this list, so that aliasing and in-place mutation are observable. -/
abbrev CVHeap : Type := List ConstantValue

/-- `duplicateConstantValue` from `symtab.c`: `NULL` maps to `NULL`; otherwise
a fresh cell (a fresh index, `heap.length`) is allocated and the tag together
with the active payload is copied into it.  Reading through a dangling index
yields `none` (undefined behaviour in C, never reached from valid pointers). -/
def duplicateConstantValue (heap : CVHeap) (v : Option Nat) : CVHeap × Option Nat :=
  match v with
  | none => (heap, none)
  | some i =>
    match heap[i]? with
    | none => (heap, none)
    | some cv => (heap ++ [cv], some heap.length)

/-- An in-place update `*p = w` through a `ConstantValue*` pointer: the
mutation used to state independence of the duplicate from the original. -/
def writeConstantValue (heap : CVHeap) (i : Nat) (w : ConstantValue) : CVHeap :=
  heap.set i w

/-- Modelled from the spec: `MAX_IDENT_LEN` is declared in the repository's
header `symtab.h`, which is absent from the sources (only `symtab.c` is
present).  Per §6 of the spec, identifier names are bounded by a fixed maximum
length constant; a representative positive value is fixed here. -/
def MAX_IDENT_LEN : Nat := 15

/-- `validateName` from `symtab.c`: `exit(1)` when the name is `NULL` or
`strlen(name) >= MAX_IDENT_LEN`; embedded as a boolean guard (`false` = the
process aborts). -/
def validateName (name : Option String) : Bool :=
  match name with
  | none => false
  | some s => decide (s.length < MAX_IDENT_LEN)

/-- The declared object (`struct Object`): `name`, `kind`, and the union of
attribute structs flattened into optional fields.
`varType`/`varScope` embed `VariableAttributes`; `constValue` embeds
`ConstantAttributes` (a pointer into a constant-value heap in C, carried here
as a value); `actualType` embeds `TypeAttributes`; `paramList`, `returnType`
and `scope` embed `FunctionAttributes` / `ProcedureAttributes` /
`ProgramAttributes` (the two parameter lists and three scope fields occupy
the same union slot, hence one field each); `paramKind`, `paramType` and
`function` embed `ParameterAttributes`. -/
structure Object where
  name : String
  kind : ObjectKind
  varType : Option Ty := none
  varScope : Option Nat := none
  constValue : Option ConstantValue := none
  actualType : Option Ty := none
  paramList : List Nat := []
  returnType : Option Ty := none
  scope : Option Nat := none
  paramKind : ParamKind := ParamKind.paramValue
  paramType : Option Ty := none
  function : Option Nat := none
deriving DecidableEq

/-- `struct Scope`: the ordered local declaration list (`objList`, a linked
list of `Object*` in C, a list of object indices here), the non-owning
`owner` object and the non-owning `outer` scope. -/
structure Scope where
  objList : List Nat := []
  owner : Nat
  outer : Option Nat
deriving DecidableEq

/-- The process-wide symbol table (`struct SymTab` plus the two object/scope
heaps that C keeps implicit in `malloc`): `program`, `currentScope` and
`globalObjectList` are exactly the three fields of `SymTab`. -/
structure SymTab where
  objs : List Object
  scopes : List Scope
  program : Option Nat
  currentScope : Option Nat
  globalObjectList : List Nat
deriving DecidableEq

/-- `createScope` from `symtab.c`: a fresh scope with an empty declaration
list, the given non-owning owner and outer links. -/
def createScope (owner : Nat) (outer : Option Nat) : Scope :=
  { objList := [], owner := owner, outer := outer }

/-- `createBaseObject` from `symtab.c`: validates the name (fatal on failure,
modelled by `none`), then allocates an object carrying exactly that name and
kind, all attributes unset. -/
def createBaseObject (name : Option String) (kind : ObjectKind) : Option Object :=
  match name with
  | none => none
  | some n =>
    if validateName (some n) then some { name := n, kind := kind } else none

/-- `createProgramObject` from `symtab.c`: base object of kind `OBJ_PROGRAM`,
a fresh root scope owned by it with `outer = NULL`, and the singleton's
`program` field is set to the new object.  `currentScope` is not touched. -/
def createProgramObject (s : SymTab) (name : Option String) : Option (SymTab × Nat) :=
  match createBaseObject name ObjectKind.objProgram with
  | none => none
  | some base =>
    let objId := s.objs.length
    let scId := s.scopes.length
    some ({ s with
             objs := s.objs ++ [{ base with scope := some scId }],
             scopes := s.scopes ++ [createScope objId none],
             program := some objId }, objId)

/-- `createVariableObject` from `symtab.c`: kind `OBJ_VARIABLE`, type unset,
and the variable's non-owning scope back-reference set to the current
scope. -/
def createVariableObject (s : SymTab) (name : Option String) : Option (SymTab × Nat) :=
  match createBaseObject name ObjectKind.objVariable with
  | none => none
  | some base =>
    some ({ s with
             objs := s.objs ++ [{ base with varType := none, varScope := s.currentScope }] },
          s.objs.length)

/-- `createConstantObject` from `symtab.c`: kind `OBJ_CONSTANT`, value unset. -/
def createConstantObject (s : SymTab) (name : Option String) : Option (SymTab × Nat) :=
  match createBaseObject name ObjectKind.objConstant with
  | none => none
  | some base =>
    some ({ s with objs := s.objs ++ [{ base with constValue := none }] }, s.objs.length)

/-- `createTypeObject` from `symtab.c`: kind `OBJ_TYPE`, actual type unset. -/
def createTypeObject (s : SymTab) (name : Option String) : Option (SymTab × Nat) :=
  match createBaseObject name ObjectKind.objType with
  | none => none
  | some base =>
    some ({ s with objs := s.objs ++ [{ base with actualType := none }] }, s.objs.length)

/-- `createFunctionObject` from `symtab.c`: kind `OBJ_FUNCTION`, empty
parameter list, no return type, and a fresh body scope whose outer link is
the current scope at construction time.  `currentScope` is not touched. -/
def createFunctionObject (s : SymTab) (name : Option String) : Option (SymTab × Nat) :=
  match createBaseObject name ObjectKind.objFunction with
  | none => none
  | some base =>
    let objId := s.objs.length
    let scId := s.scopes.length
    some ({ s with
             objs := s.objs ++ [{ base with paramList := [], returnType := none,
                                            scope := some scId }],
             scopes := s.scopes ++ [createScope objId s.currentScope] }, objId)

/-- `createProcedureObject` from `symtab.c`: kind `OBJ_PROCEDURE`, empty
parameter list, and a fresh body scope whose outer link is the current scope
at construction time.  `currentScope` is not touched. -/
def createProcedureObject (s : SymTab) (name : Option String) : Option (SymTab × Nat) :=
  match createBaseObject name ObjectKind.objProcedure with
  | none => none
  | some base =>
    let objId := s.objs.length
    let scId := s.scopes.length
    some ({ s with
             objs := s.objs ++ [{ base with paramList := [], scope := some scId }],
             scopes := s.scopes ++ [createScope objId s.currentScope] }, objId)

/-- `createParameterObject` from `symtab.c`: kind `OBJ_PARAMETER`, the given
passing mode, type unset, and the non-owning back-reference to the owning
function/procedure. -/
def createParameterObject (s : SymTab) (name : Option String) (kind : ParamKind)
    (owner : Nat) : Option (SymTab × Nat) :=
  match createBaseObject name ObjectKind.objParameter with
  | none => none
  | some base =>
    some ({ s with
             objs := s.objs ++ [{ base with paramKind := kind, paramType := none,
                                            function := some owner }] },
          s.objs.length)

/-- `enterBlock` from `symtab.c`: a no-op on `NULL`, otherwise sets the given
scope as `currentScope`. -/
def enterBlock (s : SymTab) (scope : Option Nat) : SymTab :=
  match scope with
  | none => s
  | some i => { s with currentScope := some i }

/-- `exitBlock` from `symtab.c`: reads `currentScope->outer` unconditionally
(`none` models the crash when `currentScope` is `NULL` or dangling); a no-op
when the outer link is absent, otherwise moves `currentScope` to it. -/
def exitBlock (s : SymTab) : Option SymTab :=
  match s.currentScope with
  | none => none
  | some i =>
    match s.scopes[i]? with
    | none => none
    | some sc =>
      match sc.outer with
      | none => some s
      | some j => some { s with currentScope := some j }

/-- `addObject` from `symtab.c`: appends a node for `obj` at the tail of the
linked list (walking `next` until the end). -/
def addObject : List Nat → Nat → List Nat
  | [], o => [o]
  | n :: rest, o => n :: addObject rest o

/-- `findObject` from `symtab.c`: linear scan, first object whose name
compares equal with `strcmp`; `NULL` (here `none`) when no name matches. -/
def findObject (s : SymTab) : List Nat → String → Option Nat
  | [], _ => none
  | o :: rest, name =>
    match s.objs[o]? with
    | none => none
    | some obj => if obj.name = name then some o else findObject s rest name

/-- The field assignment `obj->funcAttrs->returnType = ...` used by
`initSymTab`. -/
def setReturnType (s : SymTab) (o : Nat) (t : Option Ty) : SymTab :=
  match s.objs[o]? with
  | none => s
  | some obj => { s with objs := s.objs.set o { obj with returnType := t } }

/-- The field assignment `param->paramAttrs->type = ...` used by
`initSymTab`. -/
def setParamType (s : SymTab) (o : Nat) (t : Option Ty) : SymTab :=
  match s.objs[o]? with
  | none => s
  | some obj => { s with objs := s.objs.set o { obj with paramType := t } }

/-- The call `addObject(&(obj->procAttrs->paramList), param)` used by
`initSymTab`. -/
def addToParamList (s : SymTab) (o : Nat) (p : Nat) : SymTab :=
  match s.objs[o]? with
  | none => s
  | some obj => { s with objs := s.objs.set o { obj with paramList := addObject obj.paramList p } }

/-- The call `addObject(&(symbolTable->globalObjectList), obj)` used by
`initSymTab`. -/
def addToGlobalList (s : SymTab) (o : Nat) : SymTab :=
  { s with globalObjectList := addObject s.globalObjectList o }

/-- The freshly allocated `SymTab` at the top of `initSymTab`: `program`,
`currentScope` and `globalObjectList` all null/empty. -/
def emptySymTab : SymTab :=
  { objs := [], scopes := [], program := none, currentScope := none, globalObjectList := [] }

/-- `initSymTab` from `symtab.c`: allocates the singleton, then declares the
five built-ins `READC`, `READI`, `WRITEI` (one by-value `Int` parameter `i`),
`WRITEC` (one by-value `Char` parameter `ch`) and `WRITELN`, appending each
to `globalObjectList` in that order.  (The two global primitive `Type`
singletons are value-level here.) -/
def initSymTab : Option SymTab := do
  let s := emptySymTab
  let (s, readc) ← createFunctionObject s (some "READC")
  let s := setReturnType s readc (some makeCharType)
  let s := addToGlobalList s readc
  let (s, readi) ← createFunctionObject s (some "READI")
  let s := setReturnType s readi (some makeIntType)
  let s := addToGlobalList s readi
  let (s, writei) ← createProcedureObject s (some "WRITEI")
  let (s, pi) ← createParameterObject s (some "i") ParamKind.paramValue writei
  let s := setParamType s pi (some makeIntType)
  let s := addToParamList s writei pi
  let s := addToGlobalList s writei
  let (s, writec) ← createProcedureObject s (some "WRITEC")
  let (s, pch) ← createParameterObject s (some "ch") ParamKind.paramValue writec
  let s := setParamType s pch (some makeCharType)
  let s := addToParamList s writec pch
  let s := addToGlobalList s writec
  let (s, wrln) ← createProcedureObject s (some "WRITELN")
  let s := addToGlobalList s wrln
  pure s

/-- The state right after `initSymTab` (which always succeeds: all built-in
names are valid). -/
def initState : SymTab := initSymTab.getD emptySymTab

/-- `declareObject` from `symtab.c`: a silent no-op on a null object or a
null `currentScope`; a `OBJ_PARAMETER` is appended to the parameter list of
`currentScope->owner` when that owner is a function or a procedure (and
silently dropped otherwise); every other kind is appended to the current
scope's local declaration list. -/
def declareObject (s : SymTab) (objId : Option Nat) : SymTab :=
  match objId with
  | none => s
  | some o =>
    match s.currentScope with
    | none => s
    | some sc =>
      match s.objs[o]?, s.scopes[sc]? with
      | some obj, some scope =>
        if obj.kind = ObjectKind.objParameter then
          match s.objs[scope.owner]? with
          | none => s
          | some ownerObj =>
            let ownerObj' := { ownerObj with paramList := addObject ownerObj.paramList o }
            match ownerObj.kind with
            | ObjectKind.objFunction =>
              { s with objs := s.objs.set scope.owner ownerObj' }
            | ObjectKind.objProcedure =>
              { s with objs := s.objs.set scope.owner ownerObj' }
            | _ => s
        else
          let scope' := { scope with objList := addObject scope.objList o }
          { s with scopes := s.scopes.set sc scope' }
      | _, _ => s

/-- Repeatedly following the `outer` link from scope `i` (the observable of
the spec's scope-chain invariant): `some r` is the first scope on the chain
whose `outer` is absent, reached within `fuel` steps; `none` means the fuel
ran out or the chain left the scope heap. -/
def rootScope (s : SymTab) (fuel : Nat) (i : Nat) : Option Nat :=
  match fuel with
  | 0 => none
  | fuel' + 1 =>
    match s.scopes[i]? with
    | none => none
    | some sc =>
      match sc.outer with
      | none => some i
      | some j => rootScope s fuel' j

/-- The `outer` field of scope `r`, read through the scope heap. -/
def scopeOuterAt (s : SymTab) (r : Nat) : Option (Option Nat) :=
  (s.scopes[r]?).map Scope.outer

/-- The `outer` field of the scope at which the outer chain from `i`
terminates: `some none` says the chain reaches, within `fuel` steps, a scope
whose `outer` link is absent. -/
def chainRootOuter (s : SymTab) (fuel i : Nat) : Option (Option Nat) :=
  (rootScope s fuel i).bind (scopeOuterAt s)

/-- The object a constructor returned: the cell at the returned index in the
returned state (`none` when the constructor aborted). -/
def createdObject : Option (SymTab × Nat) → Option Object
  | none => none
  | some (s, o) => s.objs[o]?

/-- States reachable by the documented protocol: `initSymTab`, the object
constructors, `enterBlock` / `exitBlock`, and `declareObject`.  The side
conditions on `enter`, `paramObj` and `declare` say that the caller passes a
pointer it legitimately obtained (dereferencing anything else is undefined
behaviour in C). -/
inductive Reach : SymTab → Prop where
  | init : ∀ s, initSymTab = some s → Reach s
  | progObj : ∀ s n s' o, Reach s → createProgramObject s n = some (s', o) → Reach s'
  | varObj : ∀ s n s' o, Reach s → createVariableObject s n = some (s', o) → Reach s'
  | constObj : ∀ s n s' o, Reach s → createConstantObject s n = some (s', o) → Reach s'
  | typeObj : ∀ s n s' o, Reach s → createTypeObject s n = some (s', o) → Reach s'
  | funcObj : ∀ s n s' o, Reach s → createFunctionObject s n = some (s', o) → Reach s'
  | procObj : ∀ s n s' o, Reach s → createProcedureObject s n = some (s', o) → Reach s'
  | paramObj : ∀ s n k w s' o, Reach s → w < s.objs.length →
      createParameterObject s n k w = some (s', o) → Reach s'
  | enter : ∀ s sc, Reach s → (∀ i, sc = some i → i < s.scopes.length) →
      Reach (enterBlock s sc)
  | exit : ∀ s s', Reach s → exitBlock s = some s' → Reach s'
  | declare : ∀ s o, Reach s → (∀ i, o = some i → i < s.objs.length) →
      Reach (declareObject s o)

/-- Each scope's `outer` link points at a strictly earlier-allocated scope
(scopes are only ever chained to the `currentScope` existing at their
creation), so the outer chain cannot cycle. -/
def ScopesAcyclic (s : SymTab) : Prop :=
  ∀ (i : Nat) (sc : Scope) (j : Nat), s.scopes[i]? = some sc → sc.outer = some j → j < i

/-- The scope cursor, when set, points into the scope heap. -/
def CurrentScopeValid (s : SymTab) : Prop :=
  ∀ c, s.currentScope = some c → c < s.scopes.length

/-- Every object's owned `scope` field, when set, points into the scope
heap. -/
def ObjScopesValid (s : SymTab) : Prop :=
  ∀ (o : Nat) (obj : Object) (i : Nat),
    s.objs[o]? = some obj → obj.scope = some i → i < s.scopes.length

/-- The structural invariant maintained by the protocol. -/
def WF (s : SymTab) : Prop :=
  ScopesAcyclic s ∧ CurrentScopeValid s ∧ ObjScopesValid s

/-- A demonstration trace used by the concrete witnesses below: starting from
`initState`, create program `PROG` (object 7, root scope 5), enter its root
scope, create function `F` (object 8, body scope 6 with outer 5), enter the
body scope, and create parameter `x` (object 9) owned by `F`. -/
def demo1 : SymTab × Nat := (createProgramObject initState (some "PROG")).getD (emptySymTab, 0)

/-- Second demo step: the cursor enters the program's root scope. -/
def demo2 : SymTab := enterBlock demo1.1 (some 5)

/-- Third demo step: function `F` is created while the root scope is
current. -/
def demo3 : SymTab × Nat := (createFunctionObject demo2 (some "F")).getD (emptySymTab, 0)

/-- Fourth demo step: the cursor enters `F`'s body scope. -/
def demo4 : SymTab := enterBlock demo3.1 (some 6)

/-- Fifth demo step: parameter `x` owned by `F` is created. -/
def demo5 : SymTab × Nat :=
  (createParameterObject demo4 (some "x") ParamKind.paramValue demo3.2).getD (emptySymTab, 0)

/-- The state at the end of the demonstration trace. -/
def demoState : SymTab := demo5.1

lemma addObject_eq_append (l : List Nat) (o : Nat) : addObject l o = l ++ [o] := by
  induction l with
  | nil => rfl
  | cons n rest ih => simp [addObject, ih]

lemma getElem?_append_one {α : Type} (l : List α) (a : α) (n : Nat) (x : α)
    (h : (l ++ [a])[n]? = some x) : l[n]? = some x ∨ (n = l.length ∧ x = a) := by
  rcases Nat.lt_trichotomy n l.length with hlt | heq | hgt
  · exact Or.inl (by rwa [List.getElem?_append_left hlt] at h)
  · subst heq
    rw [List.getElem?_concat_length] at h
    exact Or.inr ⟨rfl, (Option.some.inj h).symm⟩
  · exfalso
    rw [List.getElem?_eq_none_iff.mpr (by simp; omega)] at h
    cases h

lemma WF_step_obj (s s' : SymTab) (newObj : Object)
    (hobjs : s'.objs = s.objs ++ [newObj])
    (hscopes : s'.scopes = s.scopes)
    (hcur : s'.currentScope = s.currentScope)
    (hscope : newObj.scope = none)
    (hWF : WF s) : WF s' := by
  obtain ⟨hA, hC, hO⟩ := hWF
  refine ⟨?_, ?_, ?_⟩
  · intro i sc j h1 h2
    rw [hscopes] at h1
    exact hA i sc j h1 h2
  · intro c hc
    rw [hcur] at hc
    rw [hscopes]
    exact hC c hc
  · intro o obj i h1 h2
    rw [hobjs] at h1
    rw [hscopes]
    rcases getElem?_append_one _ _ _ _ h1 with h | ⟨_, hx⟩
    · exact hO o obj i h h2
    · subst hx
      rw [hscope] at h2
      exact Option.noConfusion h2

lemma WF_step_scope (s s' : SymTab) (newObj : Object) (w : Nat) (outer : Option Nat)
    (hobjs : s'.objs = s.objs ++ [newObj])
    (hscopes : s'.scopes = s.scopes ++ [createScope w outer])
    (hcur : s'.currentScope = s.currentScope)
    (hscope : newObj.scope = some s.scopes.length)
    (houter : outer = none ∨ outer = s.currentScope)
    (hWF : WF s) : WF s' := by
  obtain ⟨hA, hC, hO⟩ := hWF
  refine ⟨?_, ?_, ?_⟩
  · intro i sc j h1 h2
    rw [hscopes] at h1
    rcases getElem?_append_one _ _ _ _ h1 with h | ⟨hn, hx⟩
    · exact hA i sc j h h2
    · subst hn
      subst hx
      simp only [createScope] at h2
      rcases houter with h | h
      · rw [h] at h2
        exact Option.noConfusion h2
      · rw [h] at h2
        exact hC j h2
  · intro c hc
    rw [hcur] at hc
    have := hC c hc
    rw [hscopes]
    simp only [List.length_append, List.length_cons, List.length_nil]
    omega
  · intro o obj i h1 h2
    rw [hobjs] at h1
    rw [hscopes]
    simp only [List.length_append, List.length_cons, List.length_nil]
    rcases getElem?_append_one _ _ _ _ h1 with h | ⟨_, hx⟩
    · have := hO o obj i h h2
      omega
    · subst hx
      rw [hscope] at h2
      have : s.scopes.length = i := Option.some.inj h2
      omega

lemma WF_step_set (s s' : SymTab) (k : Nat) (oldObj newObj : Object)
    (hold : s.objs[k]? = some oldObj)
    (hobjs : s'.objs = s.objs.set k newObj)
    (hscopes : s'.scopes = s.scopes)
    (hcur : s'.currentScope = s.currentScope)
    (hscope : newObj.scope = oldObj.scope)
    (hWF : WF s) : WF s' := by
  obtain ⟨hA, hC, hO⟩ := hWF
  refine ⟨?_, ?_, ?_⟩
  · intro i sc j h1 h2
    rw [hscopes] at h1
    exact hA i sc j h1 h2
  · intro c hc
    rw [hcur] at hc
    rw [hscopes]
    exact hC c hc
  · intro o obj i h1 h2
    rw [hobjs] at h1
    rw [hscopes]
    by_cases hk : o = k
    · subst hk
      have hlt : o < s.objs.length := (List.getElem?_eq_some.mp hold).1
      rw [List.getElem?_set_eq_of_lt newObj hlt] at h1
      obtain rfl := Option.some.inj h1
      rw [hscope] at h2
      exact hO o oldObj i hold h2
    · rw [List.getElem?_set_ne (Ne.symm hk)] at h1
      exact hO o obj i h1 h2

lemma WF_step_setScope (s s' : SymTab) (k : Nat) (oldSc newSc : Scope)
    (hold : s.scopes[k]? = some oldSc)
    (hscopes : s'.scopes = s.scopes.set k newSc)
    (hobjs : s'.objs = s.objs)
    (hcur : s'.currentScope = s.currentScope)
    (houter : newSc.outer = oldSc.outer)
    (hWF : WF s) : WF s' := by
  obtain ⟨hA, hC, hO⟩ := hWF
  refine ⟨?_, ?_, ?_⟩
  · intro i sc j h1 h2
    rw [hscopes] at h1
    by_cases hk : i = k
    · subst hk
      have hlt : i < s.scopes.length := (List.getElem?_eq_some.mp hold).1
      rw [List.getElem?_set_eq_of_lt newSc hlt] at h1
      obtain rfl := Option.some.inj h1
      rw [houter] at h2
      exact hA i oldSc j hold h2
    · rw [List.getElem?_set_ne (Ne.symm hk)] at h1
      exact hA i sc j h1 h2
  · intro c hc
    rw [hcur] at hc
    rw [hscopes, List.length_set]
    exact hC c hc
  · intro o obj i h1 h2
    rw [hobjs] at h1
    rw [hscopes, List.length_set]
    exact hO o obj i h1 h2

lemma createBaseObject_scope {n : Option String} {K : ObjectKind} {base : Object}
    (h : createBaseObject n K = some base) : base.scope = none := by
  simp only [createBaseObject] at h
  split at h
  · exact Option.noConfusion h
  · split at h
    · obtain rfl := Option.some.inj h
      rfl
    · exact Option.noConfusion h

lemma WF_createProgramObject {s s' : SymTab} {n : Option String} {o : Nat}
    (h : createProgramObject s n = some (s', o)) (hWF : WF s) : WF s' := by
  simp only [createProgramObject] at h
  cases hb : createBaseObject n ObjectKind.objProgram with
  | none => rw [hb] at h; exact Option.noConfusion h
  | some base =>
    rw [hb] at h
    simp only [Option.some.injEq, Prod.mk.injEq] at h
    obtain ⟨hs, _⟩ := h
    subst hs
    exact WF_step_scope s _ _ _ _ rfl rfl rfl rfl (Or.inl rfl) hWF

lemma WF_createVariableObject {s s' : SymTab} {n : Option String} {o : Nat}
    (h : createVariableObject s n = some (s', o)) (hWF : WF s) : WF s' := by
  simp only [createVariableObject] at h
  cases hb : createBaseObject n ObjectKind.objVariable with
  | none => rw [hb] at h; exact Option.noConfusion h
  | some base =>
    rw [hb] at h
    simp only [Option.some.injEq, Prod.mk.injEq] at h
    obtain ⟨hs, _⟩ := h
    subst hs
    have hbs : base.scope = none := createBaseObject_scope hb
    exact WF_step_obj s _ _ rfl rfl rfl hbs hWF

lemma WF_createConstantObject {s s' : SymTab} {n : Option String} {o : Nat}
    (h : createConstantObject s n = some (s', o)) (hWF : WF s) : WF s' := by
  simp only [createConstantObject] at h
  cases hb : createBaseObject n ObjectKind.objConstant with
  | none => rw [hb] at h; exact Option.noConfusion h
  | some base =>
    rw [hb] at h
    simp only [Option.some.injEq, Prod.mk.injEq] at h
    obtain ⟨hs, _⟩ := h
    subst hs
    have hbs : base.scope = none := createBaseObject_scope hb
    exact WF_step_obj s _ _ rfl rfl rfl hbs hWF

lemma WF_createTypeObject {s s' : SymTab} {n : Option String} {o : Nat}
    (h : createTypeObject s n = some (s', o)) (hWF : WF s) : WF s' := by
  simp only [createTypeObject] at h
  cases hb : createBaseObject n ObjectKind.objType with
  | none => rw [hb] at h; exact Option.noConfusion h
  | some base =>
    rw [hb] at h
    simp only [Option.some.injEq, Prod.mk.injEq] at h
    obtain ⟨hs, _⟩ := h
    subst hs
    have hbs : base.scope = none := createBaseObject_scope hb
    exact WF_step_obj s _ _ rfl rfl rfl hbs hWF

lemma WF_createFunctionObject {s s' : SymTab} {n : Option String} {o : Nat}
    (h : createFunctionObject s n = some (s', o)) (hWF : WF s) : WF s' := by
  simp only [createFunctionObject] at h
  cases hb : createBaseObject n ObjectKind.objFunction with
  | none => rw [hb] at h; exact Option.noConfusion h
  | some base =>
    rw [hb] at h
    simp only [Option.some.injEq, Prod.mk.injEq] at h
    obtain ⟨hs, _⟩ := h
    subst hs
    exact WF_step_scope s _ _ _ _ rfl rfl rfl rfl (Or.inr rfl) hWF

lemma WF_createProcedureObject {s s' : SymTab} {n : Option String} {o : Nat}
    (h : createProcedureObject s n = some (s', o)) (hWF : WF s) : WF s' := by
  simp only [createProcedureObject] at h
  cases hb : createBaseObject n ObjectKind.objProcedure with
  | none => rw [hb] at h; exact Option.noConfusion h
  | some base =>
    rw [hb] at h
    simp only [Option.some.injEq, Prod.mk.injEq] at h
    obtain ⟨hs, _⟩ := h
    subst hs
    exact WF_step_scope s _ _ _ _ rfl rfl rfl rfl (Or.inr rfl) hWF

lemma WF_createParameterObject {s s' : SymTab} {n : Option String} {k : ParamKind}
    {w o : Nat} (h : createParameterObject s n k w = some (s', o)) (hWF : WF s) : WF s' := by
  simp only [createParameterObject] at h
  cases hb : createBaseObject n ObjectKind.objParameter with
  | none => rw [hb] at h; exact Option.noConfusion h
  | some base =>
    rw [hb] at h
    simp only [Option.some.injEq, Prod.mk.injEq] at h
    obtain ⟨hs, _⟩ := h
    subst hs
    have hbs : base.scope = none := createBaseObject_scope hb
    exact WF_step_obj s _ _ rfl rfl rfl hbs hWF

lemma WF_enterBlock {s : SymTab} {sc : Option Nat}
    (hv : ∀ i, sc = some i → i < s.scopes.length) (hWF : WF s) : WF (enterBlock s sc) := by
  cases sc with
  | none => exact hWF
  | some i =>
    obtain ⟨hA, hC, hO⟩ := hWF
    refine ⟨hA, ?_, hO⟩
    intro c hc
    simp only [enterBlock, Option.some.injEq] at hc
    exact hc ▸ hv i rfl

lemma WF_exitBlock {s s' : SymTab} (h : exitBlock s = some s') (hWF : WF s) : WF s' := by
  obtain ⟨hA, hC, hO⟩ := hWF
  simp only [exitBlock] at h
  split at h
  · exact Option.noConfusion h
  next i hc =>
    split at h
    · exact Option.noConfusion h
    next sc hsc =>
      split at h
      · obtain rfl := Option.some.inj h
        exact ⟨hA, hC, hO⟩
      next j ho =>
        obtain rfl := Option.some.inj h
        refine ⟨hA, ?_, hO⟩
        intro c hcc
        simp only [Option.some.injEq] at hcc
        have hji : j < i := hA i sc j hsc ho
        have hil : i < s.scopes.length := hC i hc
        show c < s.scopes.length
        omega

lemma WF_declareObject {s : SymTab} {o : Option Nat}
    (hv : ∀ i, o = some i → i < s.objs.length) (hWF : WF s) : WF (declareObject s o) := by
  cases o with
  | none => exact hWF
  | some i =>
    simp only [declareObject]
    split
    · exact hWF
    next sc hc =>
      split
      next obj scope hobj hsc =>
        split
        next hk =>
          split
          · exact hWF
          next ownerObj howner =>
            split
            · exact WF_step_set s _ scope.owner ownerObj _ howner rfl rfl rfl rfl hWF
            · exact WF_step_set s _ scope.owner ownerObj _ howner rfl rfl rfl rfl hWF
            · exact hWF
        next hk =>
          exact WF_step_setScope s _ sc scope _ hsc rfl rfl rfl rfl hWF
      next => exact hWF

lemma initState_scopes :
    initState.scopes =
      [createScope 0 none, createScope 1 none, createScope 2 none,
       createScope 4 none, createScope 6 none] := by decide

lemma initState_objScopes :
    initState.objs.map Object.scope =
      [some 0, some 1, some 2, none, some 3, none, some 4] := by decide

lemma WF_initState : WF initState := by
  refine ⟨?_, ?_, ?_⟩
  · intro i sc j h1 h2
    have hmem : sc ∈ initState.scopes := List.getElem?_mem h1
    rw [initState_scopes] at hmem
    fin_cases hmem <;> exact Option.noConfusion h2
  · intro c hc
    exact Option.noConfusion hc
  · intro o obj i h1 h2
    have hms : (initState.objs.map Object.scope)[o]? = some obj.scope := by
      rw [List.getElem?_map, h1]
      rfl
    rw [initState_objScopes] at hms
    have hmem := List.getElem?_mem hms
    rw [h2] at hmem
    have hlen : initState.scopes.length = 5 := rfl
    rw [hlen]
    simp at hmem
    rcases hmem with h | h | h | h | h <;> omega

lemma WF_reach {s : SymTab} (h : Reach s) : WF s := by
  induction h with
  | init s h =>
    have hs : s = initState := by simp only [initState, h, Option.getD_some]
    rw [hs]
    exact WF_initState
  | progObj s n s' o _ h ih => exact WF_createProgramObject h ih
  | varObj s n s' o _ h ih => exact WF_createVariableObject h ih
  | constObj s n s' o _ h ih => exact WF_createConstantObject h ih
  | typeObj s n s' o _ h ih => exact WF_createTypeObject h ih
  | funcObj s n s' o _ h ih => exact WF_createFunctionObject h ih
  | procObj s n s' o _ h ih => exact WF_createProcedureObject h ih
  | paramObj s n k w s' o _ _ h ih => exact WF_createParameterObject h ih
  | enter s sc _ hv ih => exact WF_enterBlock hv ih
  | exit s s' _ h ih => exact WF_exitBlock h ih
  | declare s o _ hv ih => exact WF_declareObject hv ih

lemma rootScope_total (s : SymTab) (hA : ScopesAcyclic s) :
    ∀ fuel i, i < fuel → i < s.scopes.length →
    ∃ r : Nat, rootScope s fuel i = some r ∧ scopeOuterAt s r = some none := by
  intro fuel
  induction fuel with
  | zero => intro i h _; exact absurd h (Nat.not_lt_zero i)
  | succ f ih =>
    intro i hif hil
    obtain ⟨sc, hsc⟩ : ∃ sc, s.scopes[i]? = some sc := by
      rw [List.getElem?_eq_getElem hil]
      exact ⟨_, rfl⟩
    cases ho : sc.outer with
    | none =>
      refine ⟨i, ?_, ?_⟩
      · simp [rootScope, hsc, ho]
      · simp [scopeOuterAt, hsc, ho]
    | some j =>
      have hji : j < i := hA i sc j hsc ho
      obtain ⟨r, hr1, hr2⟩ := ih j (by omega) (by omega)
      refine ⟨r, ?_, hr2⟩
      simp only [rootScope, hsc, ho]
      exact hr1

lemma createBaseObject_some (n : String) (K : ObjectKind) (h : n.length < MAX_IDENT_LEN) :
    createBaseObject (some n) K = some { name := n, kind := K } := by
  simp [createBaseObject, validateName, h]

lemma createBaseObject_long (n : String) (K : ObjectKind) (h : MAX_IDENT_LEN ≤ n.length) :
    createBaseObject (some n) K = none := by
  simp [createBaseObject, validateName]
  omega

/-- The validation contract of one object constructor: an absent name is
fatal, a name whose length reaches `MAX_IDENT_LEN` is fatal, and any present
name below the bound yields an object carrying exactly that name and the
requested kind. -/
def NameValidated (create : SymTab → Option String → Option (SymTab × Nat))
    (K : ObjectKind) : Prop :=
  (∀ s : SymTab, create s none = none) ∧
  (∀ (s : SymTab) (n : String), MAX_IDENT_LEN ≤ n.length → create s (some n) = none) ∧
  (∀ (s : SymTab) (n : String), n.length < MAX_IDENT_LEN →
    (createdObject (create s (some n))).map Object.name = some n ∧
    (createdObject (create s (some n))).map Object.kind = some K)


/-- Claim C2: for every integer size and element type, `makeArrayType(size, T)`
returns an `Array` type with exactly that size and element when `size > 0` and
`T` is present, and returns no type (allocating nothing) when `size <= 0` or
`T` is absent. -/
theorem makeArrayType_spec :
    (∀ (size : Int) (t : Ty), 0 < size → makeArrayType size (some t) = some (Ty.array size t)) ∧
    (∀ (size : Int) (et : Option Ty), size ≤ 0 → makeArrayType size et = none) ∧
    (∀ size : Int, makeArrayType size none = none) := by
  refine ⟨?_, ?_, ?_⟩
  · intro size t h
    simp only [makeArrayType]
    rw [if_neg (by omega)]
  · intro size et h
    simp only [makeArrayType]
    rw [if_pos h]
  · intro size
    simp only [makeArrayType]
    split <;> rfl

/-- Witness for C2 at size 3 / element Int, size -1, and an absent element. -/
theorem makeArrayType_spec_witness :
    (0 : Int) < 3 ∧ makeArrayType 3 (some Ty.int) = some (Ty.array 3 Ty.int) ∧
    (-1 : Int) ≤ 0 ∧ makeArrayType (-1) (some Ty.char) = none ∧
    makeArrayType 5 none = none :=
  ⟨by decide, makeArrayType_spec.1 3 Ty.int (by decide),
   by decide, makeArrayType_spec.2.1 (-1) (some Ty.char) (by decide),
   makeArrayType_spec.2.2 5⟩

/-- Claim C9: `duplicateConstantValue` maps an absent value to an absent
result, and otherwise allocates a fresh cell whose tag and payload equal the
original's; writing through the duplicate's pointer never changes the
original cell, and writing through the original's pointer never changes the
duplicate. -/
theorem duplicateConstantValue_spec :
    (∀ heap : CVHeap, duplicateConstantValue heap none = (heap, none)) ∧
    (∀ (heap : CVHeap) (i : Nat) (c : ConstantValue), heap[i]? = some c →
      duplicateConstantValue heap (some i) = (heap ++ [c], some heap.length) ∧
      i ≠ heap.length ∧
      (∀ w : ConstantValue,
        (writeConstantValue (heap ++ [c]) heap.length w)[i]? = some c ∧
        (writeConstantValue (heap ++ [c]) i w)[heap.length]? = some c)) := by
  refine ⟨fun heap => rfl, ?_⟩
  intro heap i c h
  have hlt : i < heap.length := (List.getElem?_eq_some.mp h).1
  refine ⟨?_, by omega, ?_⟩
  · simp only [duplicateConstantValue, h]
  · intro w
    constructor
    · rw [writeConstantValue, List.getElem?_set_ne (by omega), List.getElem?_append_left hlt]
      exact h
    · rw [writeConstantValue, List.getElem?_set_ne (by omega)]
      exact List.getElem?_concat_length heap c

/-- Witness for C9 on the one-cell heap holding the Int constant 5. -/
theorem duplicateConstantValue_spec_witness :
    duplicateConstantValue [makeIntConstant 5] none = ([makeIntConstant 5], none) ∧
    duplicateConstantValue [makeIntConstant 5] (some 0) =
      ([makeIntConstant 5, makeIntConstant 5], some 1) ∧
    (writeConstantValue [makeIntConstant 5, makeIntConstant 5] 1 (makeIntConstant 9))[0]? =
      some (makeIntConstant 5) ∧
    (writeConstantValue [makeIntConstant 5, makeIntConstant 5] 0 (makeIntConstant 9))[1]? =
      some (makeIntConstant 5) := by
  refine ⟨duplicateConstantValue_spec.1 [makeIntConstant 5], ?_, ?_, ?_⟩
  · exact (duplicateConstantValue_spec.2 [makeIntConstant 5] 0 (makeIntConstant 5) rfl).1
  · exact ((duplicateConstantValue_spec.2 [makeIntConstant 5] 0 (makeIntConstant 5) rfl).2.2
      (makeIntConstant 9)).1
  · exact ((duplicateConstantValue_spec.2 [makeIntConstant 5] 0 (makeIntConstant 5) rfl).2.2
      (makeIntConstant 9)).2

/-- Claim C7: `declareObject` on an absent object, or in a state whose
`currentScope` is unset, returns normally and changes nothing. -/
theorem declareObject_silent_noop :
    (∀ s : SymTab, declareObject s none = s) ∧
    (∀ (s : SymTab) (o : Option Nat), s.currentScope = none → declareObject s o = s) := by
  refine ⟨fun s => rfl, ?_⟩
  intro s o hc
  cases o with
  | none => rfl
  | some i => simp only [declareObject, hc]

/-- Witness for C7 at the post-init state, whose `currentScope` is unset. -/
theorem declareObject_silent_noop_witness :
    declareObject initState none = initState ∧
    initState.currentScope = none ∧
    declareObject initState (some 2) = initState :=
  ⟨declareObject_silent_noop.1 initState, rfl,
   declareObject_silent_noop.2 initState (some 2) rfl⟩

/-- Claim C6: `enterBlock` sets `currentScope` to a present scope and is a
no-op on an absent one; `exitBlock`, when `currentScope` is present, moves the
cursor to the outer scope when that link is present and leaves it unchanged
when the link is absent. -/
theorem enterBlock_exitBlock_spec :
    (∀ s : SymTab, enterBlock s none = s) ∧
    (∀ (s : SymTab) (i : Nat), enterBlock s (some i) = { s with currentScope := some i }) ∧
    (∀ (s : SymTab) (i : Nat) (sc : Scope),
      s.currentScope = some i → s.scopes[i]? = some sc →
      (sc.outer = none → exitBlock s = some s) ∧
      (∀ j : Nat, sc.outer = some j →
        exitBlock s = some { s with currentScope := some j })) := by
  refine ⟨fun s => rfl, fun s i => rfl, ?_⟩
  intro s i sc hc hsc
  constructor
  · intro ho
    simp only [exitBlock, hc, hsc, ho]
  · intro j ho
    simp only [exitBlock, hc, hsc, ho]

/-- Witness for C6 on the demonstration state (cursor in `F`'s body scope,
whose outer link is the program root scope; the root's own outer is absent). -/
theorem enterBlock_exitBlock_spec_witness :
    enterBlock demoState none = demoState ∧
    enterBlock demoState (some 5) = { demoState with currentScope := some 5 } ∧
    exitBlock demoState = some { demoState with currentScope := some 5 } ∧
    exitBlock (enterBlock demoState (some 5)) = some (enterBlock demoState (some 5)) := by
  refine ⟨enterBlock_exitBlock_spec.1 demoState, enterBlock_exitBlock_spec.2.1 demoState 5,
    ?_, ?_⟩
  · exact (enterBlock_exitBlock_spec.2.2 demoState 6
      { objList := [], owner := 8, outer := some 5 } rfl rfl).2 5 rfl
  · exact (enterBlock_exitBlock_spec.2.2 (enterBlock demoState (some 5)) 5
      { objList := [], owner := 7, outer := none } rfl rfl).1 rfl

/-- Claim C10: `exitBlock` dereferences `currentScope` unconditionally — in a
state with `currentScope` unset (such as right after `initSymTab`) it crashes
rather than no-ops; under the precondition that `currentScope` is present (and
points at a live scope) it always returns normally. -/
theorem exitBlock_null_deref :
    initState.currentScope = none ∧
    exitBlock initState = none ∧
    (∀ (s : SymTab) (i : Nat) (sc : Scope),
      s.currentScope = some i → s.scopes[i]? = some sc →
      ∃ s' : SymTab, exitBlock s = some s') := by
  refine ⟨rfl, rfl, ?_⟩
  intro s i sc hc hsc
  cases ho : sc.outer with
  | none => exact ⟨s, by simp only [exitBlock, hc, hsc, ho]⟩
  | some j =>
    exact ⟨{ s with currentScope := some j }, by simp only [exitBlock, hc, hsc, ho]⟩

/-- Witness for C10's precondition part at the demonstration state. -/
theorem exitBlock_null_deref_witness :
    demoState.currentScope = some 6 ∧ (exitBlock demoState).isSome = true := by
  refine ⟨rfl, ?_⟩
  obtain ⟨s', hs'⟩ := exitBlock_null_deref.2.2 demoState 6
    { objList := [], owner := 8, outer := some 5 } rfl rfl
  rw [hs']
  rfl

/-- Claim C3 (counterexample): an empty identifier name does not fatally
terminate the process — `createVariableObject` with the empty name passes
validation and returns an object named `""`. -/
theorem createObject_empty_name_accepted :
    validateName (some "") = true ∧
    createdObject (createVariableObject initState (some "")) =
      some { name := "", kind := ObjectKind.objVariable } := by
  exact ⟨rfl, rfl⟩

/-- Claim C3 (amended): for every object constructor, an absent name or a
name whose length reaches `MAX_IDENT_LEN` is fatal (no object is returned on
that path), and every present name below the bound — including the empty
name — yields an object carrying exactly that name and the requested kind. -/
theorem create_name_validation :
    NameValidated createProgramObject ObjectKind.objProgram ∧
    NameValidated createVariableObject ObjectKind.objVariable ∧
    NameValidated createConstantObject ObjectKind.objConstant ∧
    NameValidated createTypeObject ObjectKind.objType ∧
    NameValidated createFunctionObject ObjectKind.objFunction ∧
    NameValidated createProcedureObject ObjectKind.objProcedure ∧
    (∀ (k : ParamKind) (w : Nat),
      NameValidated (fun s n => createParameterObject s n k w) ObjectKind.objParameter) := by
  refine ⟨?_, ?_, ?_, ?_, ?_, ?_, ?_⟩
  · refine ⟨fun s => rfl, ?_, ?_⟩
    · intro s n h
      simp only [createProgramObject, createBaseObject_long n ObjectKind.objProgram h]
    · intro s n h
      simp only [createProgramObject, createBaseObject_some n ObjectKind.objProgram h,
        createdObject]
      constructor <;> · rw [List.getElem?_concat_length]; rfl
  · refine ⟨fun s => rfl, ?_, ?_⟩
    · intro s n h
      simp only [createVariableObject, createBaseObject_long n ObjectKind.objVariable h]
    · intro s n h
      simp only [createVariableObject, createBaseObject_some n ObjectKind.objVariable h,
        createdObject]
      constructor <;> · rw [List.getElem?_concat_length]; rfl
  · refine ⟨fun s => rfl, ?_, ?_⟩
    · intro s n h
      simp only [createConstantObject, createBaseObject_long n ObjectKind.objConstant h]
    · intro s n h
      simp only [createConstantObject, createBaseObject_some n ObjectKind.objConstant h,
        createdObject]
      constructor <;> · rw [List.getElem?_concat_length]; rfl
  · refine ⟨fun s => rfl, ?_, ?_⟩
    · intro s n h
      simp only [createTypeObject, createBaseObject_long n ObjectKind.objType h]
    · intro s n h
      simp only [createTypeObject, createBaseObject_some n ObjectKind.objType h,
        createdObject]
      constructor <;> · rw [List.getElem?_concat_length]; rfl
  · refine ⟨fun s => rfl, ?_, ?_⟩
    · intro s n h
      simp only [createFunctionObject, createBaseObject_long n ObjectKind.objFunction h]
    · intro s n h
      simp only [createFunctionObject, createBaseObject_some n ObjectKind.objFunction h,
        createdObject]
      constructor <;> · rw [List.getElem?_concat_length]; rfl
  · refine ⟨fun s => rfl, ?_, ?_⟩
    · intro s n h
      simp only [createProcedureObject, createBaseObject_long n ObjectKind.objProcedure h]
    · intro s n h
      simp only [createProcedureObject, createBaseObject_some n ObjectKind.objProcedure h,
        createdObject]
      constructor <;> · rw [List.getElem?_concat_length]; rfl
  · intro k w
    refine ⟨fun s => rfl, ?_, ?_⟩
    · intro s n h
      simp only [createParameterObject, createBaseObject_long n ObjectKind.objParameter h]
    · intro s n h
      simp only [createParameterObject, createBaseObject_some n ObjectKind.objParameter h,
        createdObject]
      constructor <;> · rw [List.getElem?_concat_length]; rfl

/-- Witness for the amended C3: an absent name and a 15-character name are
fatal; short names (and a parameter name) yield objects with that name and
kind. -/
theorem create_name_validation_witness :
    createProgramObject initState none = none ∧
    createFunctionObject initState (some "AAAAAAAAAAAAAAA") = none ∧
    (createdObject (createVariableObject initState (some "v"))).map Object.name = some "v" ∧
    (createdObject (createVariableObject initState (some "v"))).map Object.kind =
      some ObjectKind.objVariable ∧
    (createdObject (createParameterObject initState (some "p") ParamKind.paramValue 0)).map
      Object.kind = some ObjectKind.objParameter := by
  refine ⟨create_name_validation.1.1 initState, ?_, ?_, ?_, ?_⟩
  · exact create_name_validation.2.2.2.2.1.2.1 initState "AAAAAAAAAAAAAAA" (by decide)
  · exact (create_name_validation.2.1.2.2 initState "v" (by decide)).1
  · exact (create_name_validation.2.1.2.2 initState "v" (by decide)).2
  · exact ((create_name_validation.2.2.2.2.2.2 ParamKind.paramValue 0).2.2 initState "p"
      (by decide)).2

/-- Claim C8: right after `initSymTab`, looking `"WRITEI"` up in the global
object list yields the built-in procedure, whose parameter list holds exactly
one parameter, named `"i"`, passed by value, of the Int primitive type. -/
theorem init_WRITEI_lookup :
    findObject initState initState.globalObjectList "WRITEI" = some 2 ∧
    initState.objs[2]? =
      some { name := "WRITEI", kind := ObjectKind.objProcedure, paramList := [3],
             scope := some 2 } ∧
    initState.objs[3]? =
      some { name := "i", kind := ObjectKind.objParameter,
             paramKind := ParamKind.paramValue, paramType := some makeIntType,
             function := some 2 } := by
  exact ⟨rfl, rfl, rfl⟩

/-- Claim C1: with a live current scope, declaring a Parameter appends it at
the end of the parameter list of the current scope's owner (a Function's or
Procedure's list) and leaves every scope — in particular the current scope's
local declaration list — unchanged; declaring any other kind appends it at
the end of the current scope's local declaration list and leaves every
object — in particular the owner's parameter list — unchanged. -/
theorem declareObject_routing
    (s : SymTab) (sc o : Nat) (scope : Scope) (obj ownerObj : Object)
    (hcur : s.currentScope = some sc)
    (hsc : s.scopes[sc]? = some scope)
    (hobj : s.objs[o]? = some obj)
    (hown : s.objs[scope.owner]? = some ownerObj) :
    (obj.kind = ObjectKind.objParameter →
      (ownerObj.kind = ObjectKind.objFunction ∨ ownerObj.kind = ObjectKind.objProcedure) →
      (declareObject s (some o)).objs[scope.owner]? =
        some { ownerObj with paramList := ownerObj.paramList ++ [o] } ∧
      (declareObject s (some o)).scopes = s.scopes) ∧
    (obj.kind ≠ ObjectKind.objParameter →
      (declareObject s (some o)).scopes[sc]? =
        some { scope with objList := scope.objList ++ [o] } ∧
      (declareObject s (some o)).objs = s.objs) := by
  constructor
  · intro hk hko
    have howlt : scope.owner < s.objs.length := (List.getElem?_eq_some.mp hown).1
    have hD : declareObject s (some o) =
        { s with objs := s.objs.set scope.owner ({ ownerObj with paramList := addObject ownerObj.paramList o }) } := by
      simp only [declareObject, hcur, hobj, hsc, hown, hk]
      rcases hko with h | h <;> rw [h] <;> simp
    rw [hD]
    refine ⟨?_, rfl⟩
    show (s.objs.set scope.owner _)[scope.owner]? = _
    rw [List.getElem?_set_eq_of_lt _ howlt, addObject_eq_append]
  · intro hk
    have hsclt : sc < s.scopes.length := (List.getElem?_eq_some.mp hsc).1
    have hD : declareObject s (some o) =
        { s with scopes := s.scopes.set sc ({ scope with objList := addObject scope.objList o }) } := by
      simp only [declareObject, hcur, hobj, hsc]
      rw [if_neg hk]
    rw [hD]
    refine ⟨?_, rfl⟩
    show (s.scopes.set sc _)[sc]? = _
    rw [List.getElem?_set_eq_of_lt _ hsclt, addObject_eq_append]

/-- Witness for C1: in the demonstration state (cursor in `F`'s body scope),
declaring parameter `x` appends it to `F`'s parameter list and leaves all
scopes untouched. -/
theorem declareObject_routing_witness :
    demoState.currentScope = some 6 ∧
    demoState.scopes[6]? = some { objList := [], owner := 8, outer := some 5 } ∧
    demoState.objs[9]? = some { name := "x", kind := ObjectKind.objParameter,
                                function := some 8 } ∧
    (declareObject demoState (some 9)).objs[8]? =
      some { name := "F", kind := ObjectKind.objFunction, paramList := [9],
             scope := some 6 } ∧
    (declareObject demoState (some 9)).scopes = demoState.scopes := by
  refine ⟨rfl, rfl, rfl, ?_, ?_⟩
  · exact ((declareObject_routing demoState 6 9
      { objList := [], owner := 8, outer := some 5 }
      { name := "x", kind := ObjectKind.objParameter, function := some 8 }
      { name := "F", kind := ObjectKind.objFunction, scope := some 6 }
      rfl rfl rfl rfl).1 rfl (Or.inl rfl)).1
  · exact ((declareObject_routing demoState 6 9
      { objList := [], owner := 8, outer := some 5 }
      { name := "x", kind := ObjectKind.objParameter, function := some 8 }
      { name := "F", kind := ObjectKind.objFunction, scope := some 6 }
      rfl rfl rfl rfl).1 rfl (Or.inl rfl)).2

/-- Claim C5: `createProgramObject` registers the new object as the
singleton's `program`, gives it a fresh root scope with absent outer link
owned by the new object, and leaves `currentScope` unchanged; the Function
and Procedure constructors also never modify `currentScope`. -/
theorem constructors_preserve_currentScope :
    (∀ (s s' : SymTab) (n : Option String) (o : Nat),
      createProgramObject s n = some (s', o) →
      s'.program = some o ∧
      (s'.objs[o]?).map Object.scope = some (some s.scopes.length) ∧
      s'.scopes[s.scopes.length]? = some (createScope o none) ∧
      s'.currentScope = s.currentScope) ∧
    (∀ (s s' : SymTab) (n : Option String) (o : Nat),
      createFunctionObject s n = some (s', o) → s'.currentScope = s.currentScope) ∧
    (∀ (s s' : SymTab) (n : Option String) (o : Nat),
      createProcedureObject s n = some (s', o) → s'.currentScope = s.currentScope) := by
  refine ⟨?_, ?_, ?_⟩
  · intro s s' n o h
    simp only [createProgramObject] at h
    cases hb : createBaseObject n ObjectKind.objProgram with
    | none => rw [hb] at h; exact Option.noConfusion h
    | some base =>
      rw [hb] at h
      simp only [Option.some.injEq, Prod.mk.injEq] at h
      obtain ⟨hs, ho⟩ := h
      subst hs
      subst ho
      refine ⟨rfl, ?_, ?_, rfl⟩
      · show ((s.objs ++ [_])[s.objs.length]?).map Object.scope = _
        rw [List.getElem?_concat_length]
        rfl
      · show (s.scopes ++ [_])[s.scopes.length]? = _
        rw [List.getElem?_concat_length]
  · intro s s' n o h
    simp only [createFunctionObject] at h
    cases hb : createBaseObject n ObjectKind.objFunction with
    | none => rw [hb] at h; exact Option.noConfusion h
    | some base =>
      rw [hb] at h
      simp only [Option.some.injEq, Prod.mk.injEq] at h
      obtain ⟨hs, _⟩ := h
      subst hs
      rfl
  · intro s s' n o h
    simp only [createProcedureObject] at h
    cases hb : createBaseObject n ObjectKind.objProcedure with
    | none => rw [hb] at h; exact Option.noConfusion h
    | some base =>
      rw [hb] at h
      simp only [Option.some.injEq, Prod.mk.injEq] at h
      obtain ⟨hs, _⟩ := h
      subst hs
      rfl

/-- Witness for C5: creating `PROG` from the post-init state, `F` from the
entered root scope, and a procedure `P` from the post-init state. -/
theorem constructors_preserve_currentScope_witness :
    demo1.1.program = some 7 ∧
    (demo1.1.objs[7]?).map Object.scope = some (some 5) ∧
    demo1.1.scopes[5]? = some (createScope 7 none) ∧
    demo1.1.currentScope = initState.currentScope ∧
    demo3.1.currentScope = demo2.currentScope ∧
    (((createProcedureObject initState (some "P")).getD (emptySymTab, 0)).1).currentScope =
      initState.currentScope := by
  have hprog := constructors_preserve_currentScope.1 initState demo1.1 (some "PROG") 7 rfl
  refine ⟨hprog.1, hprog.2.1, hprog.2.2.1, hprog.2.2.2, ?_, ?_⟩
  · exact constructors_preserve_currentScope.2.1 demo2 demo3.1 (some "F") 8 rfl
  · exact constructors_preserve_currentScope.2.2 initState
      ((createProcedureObject initState (some "P")).getD (emptySymTab, 0)).1 (some "P") 7 rfl

lemma reach_initState : Reach initState := Reach.init initState rfl

lemma reach_demoState : Reach demoState := by
  have h1 : Reach demo1.1 :=
    Reach.progObj initState (some "PROG") demo1.1 demo1.2 reach_initState rfl
  have h2 : Reach demo2 := by
    refine Reach.enter demo1.1 (some 5) h1 ?_
    intro i hi
    cases hi
    decide
  have h3 : Reach demo3.1 :=
    Reach.funcObj demo2 (some "F") demo3.1 demo3.2 h2 rfl
  have h4 : Reach demo4 := by
    refine Reach.enter demo3.1 (some 6) h3 ?_
    intro i hi
    cases hi
    decide
  exact Reach.paramObj demo4 (some "x") ParamKind.paramValue demo3.2 demo5.1 demo5.2 h4
    (by decide) rfl

/-- Claim C4 (counterexample): in the reachable state right after
`initSymTab`, object 0 is the built-in Function `READC`, whose body scope
(scope 0) has an absent outer link and is owned by object 0 itself — while no
Program object exists at all (`program` is unset) — so the outer chain from
this Function's body scope terminates at the Function's own scope, not at any
Program's root scope. -/
theorem scope_chain_builtin_counterexample :
    Reach initState ∧
    (initState.objs[0]?).map Object.kind = some ObjectKind.objFunction ∧
    (initState.objs[0]?).bind Object.scope = some 0 ∧
    initState.program = none ∧
    rootScope initState 1 0 = some 0 ∧
    scopeOuterAt initState 0 = some none ∧
    (initState.scopes[0]?).map Scope.owner = some 0 := by
  exact ⟨reach_initState, rfl, rfl, rfl, rfl, rfl, rfl⟩

/-- Claim C4 (amended): in every state reachable by the documented protocol,
repeatedly following the outer link from the body scope of any Function or
Procedure object terminates, within the scope count, at a scope whose outer
link is absent.  That terminal scope is the Program's root scope for
functions created below an entered Program scope, but not in general: the
built-in functions created by `initSymTab` (before any Program exists) chain
to their own scope instead. -/
theorem scope_chain_terminates (s : SymTab) (o i : Nat) (obj : Object)
    (hre : Reach s) (ho : s.objs[o]? = some obj)
    (hk : obj.kind = ObjectKind.objFunction ∨ obj.kind = ObjectKind.objProcedure)
    (hsc : obj.scope = some i) :
    chainRootOuter s (i + 1) i = some none := by
  obtain ⟨hA, hC, hO⟩ := WF_reach hre
  have hil : i < s.scopes.length := hO o obj i ho hsc
  obtain ⟨r, hr1, hr2⟩ := rootScope_total s hA (i + 1) i (by omega) hil
  simp [chainRootOuter, hr1, hr2]

/-- Witness for the amended C4: the chain from function `F`'s body scope in
the demonstration state reaches a scope with absent outer link. -/
theorem scope_chain_terminates_witness :
    demoState.objs[8]? = some { name := "F", kind := ObjectKind.objFunction,
                                scope := some 6 } ∧
    chainRootOuter demoState 7 6 = some none := by
  refine ⟨rfl, ?_⟩
  exact scope_chain_terminates demoState 8 6
    { name := "F", kind := ObjectKind.objFunction, scope := some 6 }
    reach_demoState rfl (Or.inl rfl) rfl
